import Mathlib

/-!
Verification of the batch-normalization core
(`chainer/functions/normalization/batch_normalization.py`).

We shallowly embed the generic (non-cuDNN) numeric path over exact rationals.
A tensor value is a total function from multi-indices to `ℚ` together with an
explicit shape list; floating-point square root / negative powers are modelled
by opaque function parameters (`sqrtQ`, `powNegHalf`), since no claim depends
on their numeric value except through explicitly stated algebraic hypotheses.
-/

/-- A multi-index into a dense n-dimensional array: one coordinate per axis. -/
abbrev Idx := List Nat

/-- All valid multi-indices of a given shape, in row-major order. -/
def allIdx : List Nat → List Idx
  | [] => [[]]
  | n :: s => ((List.range n).map (fun i => (allIdx s).map (fun t => i :: t))).flatten

/-- Coordinates of `idx` at the axis positions listed in `axes`
(`idx` restricted to the kept axes). -/
def subIdx (axes : List Nat) (idx : Idx) : Idx :=
  axes.map (fun j => idx.getD j 0)

/-- Number of elements reduced over per output element: the product of the
input's sizes at the reduced axes (numpy's divisor for `mean(axis=...)`). -/
def reducedCount (shape axis : List Nat) : Nat :=
  (((List.range shape.length).filter (fun j => decide (j ∈ axis))).map
    (fun j => shape.getD j 0)).prod

/-- The complement of the reduced axes:
`key_axis = tuple(i for i in range(x.ndim) if i not in self.axis)`. -/
def keyAxisOf (axis : List Nat) (R : Nat) : List Nat :=
  (List.range R).filter (fun i => decide (i ∉ axis))

/-- Semantics of `v.sum(axis=axis)` for a value `v` of shape `shape`:
the output is indexed by the kept-axis coordinates `k` and sums `v` over all
full indices whose kept coordinates equal `k`. -/
def reduceSum (shape axis : List Nat) (v : Idx → ℚ) : Idx → ℚ :=
  fun k =>
    (((allIdx shape).filter
        (fun idx => decide (subIdx (keyAxisOf axis shape.length) idx = k))).map v).sum

/-- Semantics of `v.mean(axis=axis)`. -/
def reduceMean (shape axis : List Nat) (v : Idx → ℚ) : Idx → ℚ :=
  fun k => reduceSum shape axis v k / (reducedCount shape axis : ℚ)

/-- Semantics of `v.var(axis=axis)` (numpy default `ddof=0`): the mean of the
squared deviations from the per-channel mean. -/
def reduceVar (shape axis : List Nat) (v : Idx → ℚ) : Idx → ℚ :=
  fun k =>
    reduceMean shape axis
      (fun idx =>
        (v idx - reduceMean shape axis v (subIdx (keyAxisOf axis shape.length) idx)) ^ 2) k

/-- One entry of the broadcast expander list: `None` (insert a singleton
dimension) or `slice(n)` (keep the corresponding channel dimension). -/
inductive ExEntry where
  | noneE : ExEntry
  | sliceE : Nat → ExEntry
deriving DecidableEq, Repr

/-- Axis resolution at the top of `forward`:
`if self.axis is None: self.axis = (0,) + tuple(range(gamma.ndim + 1, x.ndim))`. -/
def resolveAxis (axisSpec : Option (List Nat)) (M R : Nat) : List Nat :=
  match axisSpec with
  | some a => a
  | none => 0 :: List.range' (M + 1) (R - (M + 1))

/-- The expander list built by
`expander = [None]*x.ndim; for i, j in enumerate(key_axis): expander[j] = slice(gamma.shape[i])`.
Since `key_axis` is duplicate-free (a filter of `range`), the in-place loop is
equivalent to looking up each position `j` in `key_axis`. -/
def mkExpander (R : Nat) (keyAxis gammaShape : List Nat) : List ExEntry :=
  (List.range R).map (fun j =>
    match keyAxis.findIdx? (fun k => k = j) with
    | some i => ExEntry.sliceE (gammaShape.getD i 0)
    | none => ExEntry.noneE)

/-- Semantics of indexing a channel-shaped value with the expander and then
broadcasting against the full shape: the kept positions of the full index are
collected (in order) and fed to the channel-shaped value; positions holding a
`None` marker are the broadcast singleton dimensions and are dropped. -/
def expandWith (expander : List ExEntry) (v : Idx → ℚ) : Idx → ℚ :=
  fun idx =>
    v ((expander.zip idx).filterMap
        (fun p => match p.1 with
          | ExEntry.sliceE _ => some p.2
          | ExEntry.noneE => none))

/-- Channel index of a full index under the resolved axis convention. -/
def chanIdx (xShape gammaShape : List Nat) (axisSpec : Option (List Nat)) (idx : Idx) : Idx :=
  subIdx (keyAxisOf (resolveAxis axisSpec gammaShape.length xShape.length) xShape.length) idx

/-- Error kinds raised by the embedded core (`RuntimeError` in the source,
distinguished here by their messages). -/
inductive BNErr where
  | shapeMismatch : BNErr
  | epsilonTooSmall : BNErr
  | divisionByZero : BNErr
deriving DecidableEq, Repr

/-- The key-axis shape check at the top of both forwards:
`for i, j in enumerate(self.key_axis): if gamma.shape[i] != x.shape[j]: raise`. -/
def shapeMismatchB (keyAxis gammaShape xShape : List Nat) : Bool :=
  (List.range keyAxis.length).any
    (fun i => gammaShape.getD i 0 != xShape.getD (keyAxis.getD i 0) 0)

/-- Helper `_zero_if_none`: replace an absent tensor by a zero tensor. -/
def zero_if_none (o : Option (Idx → ℚ)) : Idx → ℚ :=
  o.getD (fun _ => 0)

/-- Helper `_x_hat(x, mean, inv_std)`: `x_mu = x - mean; x_mu *= inv_std`
(the in-place multiply acts on the freshly allocated `x_mu`). -/
def x_hat_of (x mean inv_std : Idx → ℚ) : Idx → ℚ :=
  fun i => (x i - mean i) * inv_std i

/-- Helper `_apply_bn_fwd` (numpy branch): `x_hat = _x_hat(x, mean, inv_std);
y = gamma * x_hat; y += beta`.  All arguments are already expanded. -/
def apply_bn_fwd (x mean inv_std gamma beta : Idx → ℚ) : Idx → ℚ :=
  fun i => gamma i * x_hat_of x mean inv_std i + beta i

/-- Constructor `BatchNormalization.__init__`: when the cuDNN path is mandated
(`chainer.should_use_cudnn('>=auto')`, modelled by the Boolean argument) an
`eps` below `1e-5` is rejected.  The axis-specification type check is
represented at the type level by `Option (List Nat)`. -/
def BatchNormalization.init (cudnnMandated : Bool) (eps : ℚ)
    (axisSpec : Option (List Nat)) : Except BNErr (Option (List Nat)) :=
  if cudnnMandated && decide (eps < 1 / 100000) then Except.error BNErr.epsilonTooSmall
  else Except.ok axisSpec

/-- Constructor `FixedBatchNormalization.__init__`: it performs no epsilon
check at all (the source only normalizes the axis argument). -/
def FixedBatchNormalization.init (cudnnMandated : Bool) (eps : ℚ)
    (axisSpec : Option (List Nat)) : Except BNErr (Option (List Nat)) :=
  Except.ok axisSpec

/-- Result of the generic training-mode forward: the output `y`, the cached
batch statistics (`self.mean`, `self.inv_std`), the updated running buffers,
and the resolved axis metadata. -/
structure TrainFwdOut where
  y : Idx → ℚ
  mean : Idx → ℚ
  inv_std : Idx → ℚ
  runningMean : Idx → ℚ
  runningVar : Idx → ℚ
  axis : List Nat
  keyAxis : List Nat
  expander : List ExEntry

/-- Generic (non-cuDNN) branch of `BatchNormalization.forward`.
`powNegHalf` models the elementwise `** (-0.5)`.  Absent running buffers are
zero-initialized like `xp.zeros_like(gamma)`.  Note that the source adds
`self.eps` to `var` *in place* before the running-variance update, so the
eps-stabilized variance is the one folded into `running_var`. -/
def BatchNormalization.forward (powNegHalf : ℚ → ℚ) (eps decay : ℚ)
    (xShape gammaShape : List Nat) (axisSpec : Option (List Nat))
    (x gamma beta : Idx → ℚ) (runningMean runningVar : Option (Idx → ℚ)) :
    Except BNErr TrainFwdOut :=
  let R := xShape.length
  let rm := runningMean.getD (fun _ => 0)
  let rv := runningVar.getD (fun _ => 0)
  let axis := resolveAxis axisSpec gammaShape.length R
  let keyAxis := keyAxisOf axis R
  if shapeMismatchB keyAxis gammaShape xShape then Except.error BNErr.shapeMismatch
  else
    let expander := mkExpander R keyAxis gammaShape
    let gammaE := expandWith expander gamma
    let betaE := expandWith expander beta
    let mean := reduceMean xShape axis x
    let var := fun k => reduceVar xShape axis x k + eps
    let inv_std := fun k => powNegHalf (var k)
    let y := apply_bn_fwd x (expandWith expander mean) (expandWith expander inv_std)
      gammaE betaE
    let m : Nat := xShape.prod / gammaShape.prod
    let adjust : ℚ := (m : ℚ) / max ((m : ℚ) - 1) 1
    let runningMean' := fun k => decay * rm k + (1 - decay) * mean k
    let runningVar' := fun k => decay * rv k + (1 - decay) * adjust * var k
    Except.ok
      { y := y, mean := mean, inv_std := inv_std,
        runningMean := runningMean', runningVar := runningVar',
        axis := axis, keyAxis := keyAxis, expander := expander }

/-- Result of the generic fixed-statistics forward: the output `y`, the cached
`self.inv_var`/`self.inv_std`, and the resolved axis metadata. -/
structure FixedFwdOut where
  y : Idx → ℚ
  inv_var : Idx → ℚ
  inv_std : Idx → ℚ
  axis : List Nat
  keyAxis : List Nat
  expander : List ExEntry

/-- Generic (non-cuDNN) branch of `FixedBatchNormalization.forward`.
`sqrtQ` models the elementwise `xp.sqrt`; `var = var + self.eps` allocates a
fresh buffer, `inv_var = xp.reciprocal(var)`, `inv_std = xp.sqrt(inv_var)`. -/
def FixedBatchNormalization.forward (sqrtQ : ℚ → ℚ) (eps : ℚ)
    (xShape gammaShape : List Nat) (axisSpec : Option (List Nat))
    (x gamma beta mean var : Idx → ℚ) : Except BNErr FixedFwdOut :=
  let R := xShape.length
  let axis := resolveAxis axisSpec gammaShape.length R
  let keyAxis := keyAxisOf axis R
  if shapeMismatchB keyAxis gammaShape xShape then Except.error BNErr.shapeMismatch
  else
    let expander := mkExpander R keyAxis gammaShape
    let gammaE := expandWith expander gamma
    let betaE := expandWith expander beta
    let varE := fun k => var k + eps
    let inv_var := fun k => 1 / varE k
    let inv_std := fun k => sqrtQ (inv_var k)
    let y := apply_bn_fwd x (expandWith expander mean) (expandWith expander inv_std)
      gammaE betaE
    Except.ok
      { y := y, inv_var := inv_var, inv_std := inv_std,
        axis := axis, keyAxis := keyAxis, expander := expander }

/-- First-order training-mode gradients `(gx, ggamma, gbeta)`. -/
structure TrainGradOut where
  gx : Idx → ℚ
  ggamma : Idx → ℚ
  gbeta : Idx → ℚ

/-- Generic (numpy) branch of `BatchNormalizationGrad.forward`.  `mean` and
`inv_std` are the statistics cached by the paired training forward; the axis
metadata (`axis`, `expander`) is the metadata resolved there. -/
def BatchNormalizationGrad.forward (xShape gammaShape axis : List Nat)
    (expander : List ExEntry) (mean inv_std : Idx → ℚ)
    (x gamma gy : Idx → ℚ) : TrainGradOut :=
  let inv_m : ℚ := 1 / ((xShape.prod / gammaShape.prod : Nat) : ℚ)
  let gbeta := reduceSum xShape axis gy
  let xh := x_hat_of x (expandWith expander mean) (expandWith expander inv_std)
  let ggamma := reduceSum xShape axis (fun i => gy i * xh i)
  let gx := fun i =>
    expandWith expander (fun c => gamma c * inv_std c) i *
      (gy i - (xh i * expandWith expander ggamma i + expandWith expander gbeta i) * inv_m)
  { gx := gx, ggamma := ggamma, gbeta := gbeta }

/-- First-order fixed-mode gradients `(gx, ggamma, gbeta, gmean, gvar)`. -/
structure FixedGradOut where
  gx : Idx → ℚ
  ggamma : Idx → ℚ
  gbeta : Idx → ℚ
  gmean : Idx → ℚ
  gvar : Idx → ℚ

/-- `FixedBatchNormalizationGrad.forward`.  When `self.inv_std`/`self.inv_var`
were not cached by the paired forward they are recomputed as
`inv_var = reciprocal(var + eps)`, `inv_std = sqrt(inv_var)`. -/
def FixedBatchNormalizationGrad.forward (sqrtQ : ℚ → ℚ) (eps : ℚ)
    (xShape gammaShape axis : List Nat) (expander : List ExEntry)
    (cachedInvStd cachedInvVar : Option (Idx → ℚ))
    (x gamma mean var gy : Idx → ℚ) : FixedGradOut :=
  let (inv_var, inv_std) :=
    match cachedInvStd, cachedInvVar with
    | some s, some v => (v, s)
    | _, _ =>
      let iv := fun k => 1 / (var k + eps)
      (iv, fun k => sqrtQ (iv k))
  let gamma_over_std := fun k => gamma k * inv_std k
  let xh := x_hat_of x (expandWith expander mean) (expandWith expander inv_std)
  let gx := fun i => expandWith expander gamma_over_std i * gy i
  let gbeta := reduceSum xShape axis gy
  let ggamma := reduceSum xShape axis (fun i => xh i * gy i)
  let gmean := fun k => -gamma_over_std k * gbeta k
  let gvar := fun k => -(1 / 2) * gamma k * inv_var k * ggamma k
  { gx := gx, ggamma := ggamma, gbeta := gbeta, gmean := gmean, gvar := gvar }

/-- `BatchNormalizationGrad.backward` (the training-mode second-order
backward).  `gx1`, `ggamma1` are the retained first-order outputs
(`self.output_data`); `ggx1`, `gggamma1`, `ggbeta1` are upstream gradients,
each possibly absent.  `r = 0 if ggx1 is None else (gx1 * ggx1).sum(axis)` is
computed before the `_zero_if_none` substitution, exactly as in the source. -/
def BatchNormalizationGrad.backward (xShape gammaShape axis : List Nat)
    (expander : List ExEntry) (mean inv_std : Idx → ℚ)
    (gx1 ggamma1 : Idx → ℚ) (x gamma gy : Idx → ℚ)
    (ggx1o gggamma1o ggbeta1o : Option (Idx → ℚ)) :
    (Idx → ℚ) × (Idx → ℚ) × (Idx → ℚ) :=
  let inv_m : ℚ := 1 / ((xShape.prod / gammaShape.prod : Nat) : ℚ)
  let r : Idx → ℚ :=
    match ggx1o with
    | none => fun _ => 0
    | some g => reduceSum xShape axis (fun i => gx1 i * g i)
  let coeff := fun k => gamma k * inv_std k
  let coeff_m := fun k => coeff k * inv_m
  let xh := x_hat_of x (expandWith expander mean) (expandWith expander inv_std)
  let ggx1 := zero_if_none ggx1o
  let gggamma1 := zero_if_none gggamma1o
  let ggbeta1 := zero_if_none ggbeta1o
  let gggamma2 := fun k =>
    gggamma1 k - coeff_m k * reduceSum xShape axis (fun i => xh i * ggx1 i) k
  let ggbeta2 := fun k => ggbeta1 k - coeff_m k * reduceSum xShape axis ggx1 k
  let ggamma2 := fun k => r k / gamma k
  let gx_hat2 := fun i =>
    expandWith expander gggamma2 i * gy i -
      expandWith expander (fun k => coeff_m k * ggamma1 k) i * ggx1 i
  let gstd2 := fun k =>
    -inv_std k * (r k + reduceSum xShape axis (fun i => xh i * gx_hat2 i) k)
  let gmean2 := fun k => -inv_std k * reduceSum xShape axis gx_hat2 k
  let gx2 := fun i =>
    expandWith expander inv_std i * gx_hat2 i +
      inv_m * (expandWith expander gmean2 i + xh i * expandWith expander gstd2 i)
  let ggy2 := fun i =>
    expandWith expander gggamma2 i * xh i + expandWith expander ggbeta2 i +
      expandWith expander coeff i * ggx1 i
  (gx2, ggamma2, ggy2)

/-- Variant of `BatchNormalizationGrad.backward` in which the elementwise
division `ggamma2 = r / gamma` is guarded: it errors out when some element of
`gamma` (over the channel index set) is zero, and otherwise returns the
unguarded result. -/
def BatchNormalizationGrad.backwardChecked (xShape gammaShape axis : List Nat)
    (expander : List ExEntry) (mean inv_std : Idx → ℚ)
    (gx1 ggamma1 : Idx → ℚ) (x gamma gy : Idx → ℚ)
    (ggx1o gggamma1o ggbeta1o : Option (Idx → ℚ)) :
    Except BNErr ((Idx → ℚ) × (Idx → ℚ) × (Idx → ℚ)) :=
  if (allIdx gammaShape).any (fun k => gamma k == 0) then
    Except.error BNErr.divisionByZero
  else
    Except.ok (BatchNormalizationGrad.backward xShape gammaShape axis expander
      mean inv_std gx1 ggamma1 x gamma gy ggx1o gggamma1o ggbeta1o)

/-- `FixedBatchNormalizationGrad.backward` (the fixed-mode second-order
backward).  `ggamma1` and `gbeta1` are the retained first-order outputs used
by the source (`self.output_data`);
the five upstream gradients are each possibly absent and are substituted by
`_zero_if_none` before any use. -/
def FixedBatchNormalizationGrad.backward (xShape axis : List Nat)
    (expander : List ExEntry) (inv_std inv_var gamma_over_std : Idx → ℚ)
    (ggamma1 gbeta1 : Idx → ℚ) (x gamma mean gy : Idx → ℚ)
    (ggx1o gggamma1o ggbeta1o ggmean1o ggvar1o : Option (Idx → ℚ)) :
    (Idx → ℚ) × (Idx → ℚ) × (Idx → ℚ) × (Idx → ℚ) × (Idx → ℚ) :=
  let ggx1 := zero_if_none ggx1o
  let gggamma1 := zero_if_none gggamma1o
  let ggbeta1 := zero_if_none ggbeta1o
  let ggmean1 := zero_if_none ggmean1o
  let ggvar1 := zero_if_none ggvar1o
  let xh := x_hat_of x (expandWith expander mean) (expandWith expander inv_std)
  let tmp := fun k => -(1 / 2) * ggvar1 k
  let gamma_over_var := fun k => gamma k * inv_var k
  let g_gamma_over_var := fun k => tmp k * ggamma1 k
  let gggamma2 := fun k => gggamma1 k + tmp k * gamma_over_var k
  let gx_hat := fun i => gy i * expandWith expander gggamma2 i
  let gx2 := fun i => expandWith expander inv_std i * gx_hat i
  let gmean2 := fun k => -inv_std k * reduceSum xShape axis gx_hat k
  let g_gamma_over_std := fun k =>
    reduceSum xShape axis (fun i => ggx1 i * gy i) k - ggmean1 k * gbeta1 k
  let ggbeta2 := fun k => ggbeta1 k - ggmean1 k * gamma_over_std k
  let ggy2 := fun i =>
    expandWith expander gggamma2 i * xh i + expandWith expander ggbeta2 i +
      expandWith expander gamma_over_std i * ggx1 i
  let ggamma2 := fun k =>
    inv_var k * g_gamma_over_var k + inv_std k * g_gamma_over_std k
  let gvar2 := fun k =>
    -(ggamma2 k * gamma_over_var k + 1 / 2 * inv_var k *
      (reduceSum xShape axis (fun i => xh i * gx_hat i) k -
        gamma_over_std k * g_gamma_over_std k))
  (gx2, ggamma2, gmean2, gvar2, ggy2)

/-- A store of array buffers, for the frame (no-mutation) properties: `heap`
maps a buffer address to its contents, `next` is the allocation watermark
(every caller-allocated buffer has an address `< next`). -/
structure HSt where
  heap : Nat → Idx → ℚ
  next : Nat

/-- Allocate a fresh buffer holding `v`; its address is the old `next`. -/
def hallocS (v : Idx → ℚ) (s : HSt) : HSt :=
  { heap := fun a => if a = s.next then v else s.heap a, next := s.next + 1 }

/-- Overwrite the buffer at address `r` with `v` (an in-place numpy op). -/
def hwrite (r : Nat) (v : Idx → ℚ) (s : HSt) : HSt :=
  { heap := fun a => if a = r then v else s.heap a, next := s.next }

/-- One translated numpy statement: either it binds a freshly allocated
array (`fresh`), or it updates the existing buffer at address `r` in place
(`store`).  The payload computes the written value from the current store. -/
inductive HOp where
  | fresh (f : HSt → Idx → ℚ) : HOp
  | store (r : Nat) (f : HSt → Idx → ℚ) : HOp

/-- Execute one translated statement. -/
def runOp (s : HSt) : HOp → HSt
  | HOp.fresh f => hallocS (f s) s
  | HOp.store r f => hwrite r (f s) s

/-- Execute a statement sequence left to right. -/
def runOps (s : HSt) (ops : List HOp) : HSt :=
  ops.foldl runOp s

/-- Reading a possibly-absent buffer as `_zero_if_none` does: an absent
upstream gradient reads as the zero tensor (the zeros array the source
allocates for it is fresh and never written, so it is not given an address
of its own). -/
def heapOr (o : Option Nat) (s : HSt) : Idx → ℚ :=
  match o with
  | some r => s.heap r
  | none => fun _ => 0

/-- Buffer-level translation of the generic branch of
`BatchNormalization.forward`: one `HOp` per numpy statement, in source
order.  Inputs live at addresses `rx`, `rgamma`, `rbeta`; the caller-owned
running statistics at `rrm`, `rrv` (the lazily-initialized-when-absent case
allocates fresh buffers outside the caller's frame and is not modelled).
Fresh buffers get consecutive addresses `base, base+1, …` with
`base = s0.next`; the result `y` lives at `base+4`. -/
def BatchNormalization.forwardH (powNegHalf : ℚ → ℚ) (eps decay : ℚ)
    (xShape gammaShape : List Nat) (axisSpec : Option (List Nat))
    (rx rgamma rbeta rrm rrv : Nat) (s0 : HSt) : Except BNErr Nat × HSt :=
  let R := xShape.length
  let axis := resolveAxis axisSpec gammaShape.length R
  let keyAxis := keyAxisOf axis R
  if shapeMismatchB keyAxis gammaShape xShape then (Except.error BNErr.shapeMismatch, s0)
  else
    let expander := mkExpander R keyAxis gammaShape
    let base := s0.next
    let m : Nat := xShape.prod / gammaShape.prod
    let adjust : ℚ := (m : ℚ) / max ((m : ℚ) - 1) 1
    (Except.ok (base + 4), runOps s0
      [ -- self.mean = x.mean(axis=self.axis)            (fresh: base)
        HOp.fresh (fun s => reduceMean xShape axis (s.heap rx)),
        -- var = x.var(axis=self.axis)                   (fresh: base+1)
        HOp.fresh (fun s => reduceVar xShape axis (s.heap rx)),
        -- var += self.eps                               (in place on var)
        HOp.store (base + 1) (fun s k => s.heap (base + 1) k + eps),
        -- self.inv_std = var ** (-0.5)                  (fresh: base+2)
        HOp.fresh (fun s k => powNegHalf (s.heap (base + 1) k)),
        -- _x_hat: x_mu = x - mean[expander]             (fresh: base+3)
        HOp.fresh (fun s i => s.heap rx i - expandWith expander (s.heap base) i),
        -- _x_hat: x_mu *= inv_std[expander]             (in place on x_mu)
        HOp.store (base + 3)
          (fun s i => s.heap (base + 3) i * expandWith expander (s.heap (base + 2)) i),
        -- _apply_bn_fwd: y = gamma * x_hat              (fresh: base+4)
        HOp.fresh (fun s i => expandWith expander (s.heap rgamma) i * s.heap (base + 3) i),
        -- _apply_bn_fwd: y += beta                      (in place on y)
        HOp.store (base + 4)
          (fun s i => s.heap (base + 4) i + expandWith expander (s.heap rbeta) i),
        -- self.running_mean *= self.decay               (in place, caller's buffer)
        HOp.store rrm (fun s k => s.heap rrm k * decay),
        -- self.running_mean += (1 - self.decay) * self.mean
        HOp.store rrm (fun s k => s.heap rrm k + (1 - decay) * s.heap base k),
        -- self.running_var *= self.decay                (in place, caller's buffer)
        HOp.store rrv (fun s k => s.heap rrv k * decay),
        -- self.running_var += (1 - self.decay) * adjust * var
        HOp.store rrv
          (fun s k => s.heap rrv k + (1 - decay) * adjust * s.heap (base + 1) k) ])

/-- Buffer-level translation of the generic branch of
`FixedBatchNormalization.forward`.  Note `var = var + self.eps` binds a
fresh buffer — the caller's `var` at `rvar` is only read; the output `y`
lives at `base+4`. -/
def FixedBatchNormalization.forwardH (sqrtQ : ℚ → ℚ) (eps : ℚ)
    (xShape gammaShape : List Nat) (axisSpec : Option (List Nat))
    (rx rgamma rbeta rmean rvar : Nat) (s0 : HSt) : Except BNErr Nat × HSt :=
  let R := xShape.length
  let axis := resolveAxis axisSpec gammaShape.length R
  let keyAxis := keyAxisOf axis R
  if shapeMismatchB keyAxis gammaShape xShape then (Except.error BNErr.shapeMismatch, s0)
  else
    let expander := mkExpander R keyAxis gammaShape
    let base := s0.next
    (Except.ok (base + 4), runOps s0
      [ -- var = var + self.eps                          (fresh: base)
        HOp.fresh (fun s k => s.heap rvar k + eps),
        -- self.inv_var = xp.reciprocal(var)             (fresh: base+1)
        HOp.fresh (fun s k => 1 / s.heap base k),
        -- self.inv_std = xp.sqrt(self.inv_var)          (fresh: base+2)
        HOp.fresh (fun s k => sqrtQ (s.heap (base + 1) k)),
        -- _x_hat: x_mu = x - mean[expander]             (fresh: base+3)
        HOp.fresh (fun s i => s.heap rx i - expandWith expander (s.heap rmean) i),
        -- _x_hat: x_mu *= inv_std[expander]             (in place on x_mu)
        HOp.store (base + 3)
          (fun s i => s.heap (base + 3) i * expandWith expander (s.heap (base + 2)) i),
        -- _apply_bn_fwd: y = gamma * x_hat              (fresh: base+4)
        HOp.fresh (fun s i => expandWith expander (s.heap rgamma) i * s.heap (base + 3) i),
        -- _apply_bn_fwd: y += beta                      (in place on y)
        HOp.store (base + 4)
          (fun s i => s.heap (base + 4) i + expandWith expander (s.heap rbeta) i) ])

/-- Buffer-level translation of the numpy branch of
`BatchNormalizationGrad.forward`: results `(gx, ggamma, gbeta)` live at
`(base+3, base+2, base)`. -/
def BatchNormalizationGrad.forwardH (xShape gammaShape axis : List Nat)
    (expander : List ExEntry) (rmean rinvstd rx rgamma rgy : Nat) (s0 : HSt) :
    (Nat × Nat × Nat) × HSt :=
  let inv_m : ℚ := 1 / ((xShape.prod / gammaShape.prod : Nat) : ℚ)
  let base := s0.next
  ((base + 3, base + 2, base), runOps s0
    [ -- gbeta = gy.sum(axis=self.axis)                  (fresh: base)
      HOp.fresh (fun s => reduceSum xShape axis (s.heap rgy)),
      -- _x_hat: x_mu = x - self.mean[expander]          (fresh: base+1)
      HOp.fresh (fun s i => s.heap rx i - expandWith expander (s.heap rmean) i),
      -- _x_hat: x_mu *= self.inv_std[expander]          (in place on x_mu)
      HOp.store (base + 1)
        (fun s i => s.heap (base + 1) i * expandWith expander (s.heap rinvstd) i),
      -- ggamma = (gy * x_hat).sum(axis=self.axis)       (fresh: base+2)
      HOp.fresh (fun s => reduceSum xShape axis (fun i => s.heap rgy i * s.heap (base + 1) i)),
      -- gx = (gamma*inv_std)[expander] * (gy - (x_hat*ggamma[expander] + gbeta[expander]) * inv_m)
      HOp.fresh (fun s i =>
        expandWith expander (fun c => s.heap rgamma c * s.heap rinvstd c) i *
          (s.heap rgy i -
            (s.heap (base + 1) i * expandWith expander (s.heap (base + 2)) i +
              expandWith expander (s.heap base) i) * inv_m)) ])

/-- The statement sequence of `FixedBatchNormalizationGrad.forward` after the
(possibly skipped) recomputation of the cached statistics; `rinvvar` and
`rinvstd` are the buffers holding `self.inv_var` / `self.inv_std`, `base`
the address of the first buffer allocated here. -/
def fixedGradOps (xShape axis : List Nat) (expander : List ExEntry)
    (rx rgamma rmean rgy rinvvar rinvstd base : Nat) : List HOp :=
  [ -- self.gamma_over_std = gamma * self.inv_std       (fresh: base)
    HOp.fresh (fun s k => s.heap rgamma k * s.heap rinvstd k),
    -- _x_hat: x_mu = x - mean[expander]                (fresh: base+1)
    HOp.fresh (fun s i => s.heap rx i - expandWith expander (s.heap rmean) i),
    -- _x_hat: x_mu *= self.inv_std[expander]           (in place on x_mu)
    HOp.store (base + 1)
      (fun s i => s.heap (base + 1) i * expandWith expander (s.heap rinvstd) i),
    -- gx = self.gamma_over_std[expander] * gy          (fresh: base+2)
    HOp.fresh (fun s i => expandWith expander (s.heap base) i * s.heap rgy i),
    -- gbeta = gy.sum(axis=self.axis)                   (fresh: base+3)
    HOp.fresh (fun s => reduceSum xShape axis (s.heap rgy)),
    -- ggamma = (x_hat * gy).sum(axis=self.axis)        (fresh: base+4)
    HOp.fresh (fun s => reduceSum xShape axis (fun i => s.heap (base + 1) i * s.heap rgy i)),
    -- gmean = -self.gamma_over_std * gbeta             (fresh: base+5)
    HOp.fresh (fun s k => -s.heap base k * s.heap (base + 3) k),
    -- gvar = -0.5 * gamma * self.inv_var * ggamma      (fresh: base+6)
    HOp.fresh (fun s k =>
      -(1 / 2) * s.heap rgamma k * s.heap rinvvar k * s.heap (base + 4) k) ]

/-- Buffer-level translation of `FixedBatchNormalizationGrad.forward`: when
the statistics were not cached, `inv_var`/`inv_std` are first recomputed into
fresh buffers; results `(gx, ggamma, gbeta, gmean, gvar)` follow. -/
def FixedBatchNormalizationGrad.forwardH (sqrtQ : ℚ → ℚ) (eps : ℚ)
    (xShape axis : List Nat) (expander : List ExEntry)
    (cachedInvStd cachedInvVar : Option Nat)
    (rx rgamma rmean rvar rgy : Nat) (s0 : HSt) :
    (Nat × Nat × Nat × Nat × Nat) × HSt :=
  let base := s0.next
  match cachedInvStd, cachedInvVar with
  | some rs, some rv =>
    ((base + 2, base + 4, base + 3, base + 5, base + 6),
      runOps s0 (fixedGradOps xShape axis expander rx rgamma rmean rgy rv rs base))
  | _, _ =>
    ((base + 4, base + 6, base + 5, base + 7, base + 8), runOps s0
      ( -- self.inv_var = xp.reciprocal(var + self.eps)  (fresh: base)
        HOp.fresh (fun s k => 1 / (s.heap rvar k + eps)) ::
        -- self.inv_std = xp.sqrt(self.inv_var)          (fresh: base+1)
        HOp.fresh (fun s k => sqrtQ (s.heap base k)) ::
        fixedGradOps xShape axis expander rx rgamma rmean rgy base (base + 1) (base + 2)))

/-- Buffer-level translation of `BatchNormalizationGrad.backward`: absent
upstream gradients are read through `heapOr` (the zeros arrays substituted by
`_zero_if_none`, and the reduction temporary behind `r`, are fresh buffers
never written, so they carry no address); the only in-place statement is the
`x_mu *= inv_std` inside `_x_hat`.  Results `(gx2, ggamma2, ggy2)` live at
`(base+9, base+5, base+10)`. -/
def BatchNormalizationGrad.backwardH (xShape gammaShape axis : List Nat)
    (expander : List ExEntry) (rmean rinvstd rgx1 rggamma1 rx rgamma rgy : Nat)
    (rggx1 rgggamma1 rggbeta1 : Option Nat) (s0 : HSt) :
    (Nat × Nat × Nat) × HSt :=
  let inv_m : ℚ := 1 / ((xShape.prod / gammaShape.prod : Nat) : ℚ)
  -- r = 0 if ggx1 is None else (gx1 * ggx1).sum(axis=self.axis)
  let r : HSt → Idx → ℚ := fun s =>
    match rggx1 with
    | none => fun _ => 0
    | some rg => reduceSum xShape axis (fun i => s.heap rgx1 i * s.heap rg i)
  let base := s0.next
  ((base + 9, base + 5, base + 10), runOps s0
    [ -- coeff = gamma * self.inv_std                    (fresh: base)
      HOp.fresh (fun s k => s.heap rgamma k * s.heap rinvstd k),
      -- coeff_m = coeff * inv_m                         (fresh: base+1)
      HOp.fresh (fun s k => s.heap base k * inv_m),
      -- _x_hat: x_mu = x - self.mean[expander]          (fresh: base+2)
      HOp.fresh (fun s i => s.heap rx i - expandWith expander (s.heap rmean) i),
      -- _x_hat: x_mu *= self.inv_std[expander]          (in place on x_mu)
      HOp.store (base + 2)
        (fun s i => s.heap (base + 2) i * expandWith expander (s.heap rinvstd) i),
      -- gggamma2 = gggamma1 - coeff_m * (x_hat * ggx1).sum(axis)   (fresh: base+3)
      HOp.fresh (fun s k => heapOr rgggamma1 s k -
        s.heap (base + 1) k *
          reduceSum xShape axis (fun i => s.heap (base + 2) i * heapOr rggx1 s i) k),
      -- ggbeta2 = ggbeta1 - coeff_m * ggx1.sum(axis)    (fresh: base+4)
      HOp.fresh (fun s k => heapOr rggbeta1 s k -
        s.heap (base + 1) k * reduceSum xShape axis (heapOr rggx1 s) k),
      -- ggamma2 = r / gamma                             (fresh: base+5)
      HOp.fresh (fun s k => r s k / s.heap rgamma k),
      -- gx_hat2 = gggamma2[expander] * gy - (coeff_m * ggamma1)[expander] * ggx1  (fresh: base+6)
      HOp.fresh (fun s i => expandWith expander (s.heap (base + 3)) i * s.heap rgy i -
        expandWith expander (fun k => s.heap (base + 1) k * s.heap rggamma1 k) i *
          heapOr rggx1 s i),
      -- gstd2 = -self.inv_std * (r + (x_hat * gx_hat2).sum(axis))  (fresh: base+7)
      HOp.fresh (fun s k => -s.heap rinvstd k *
        (r s k + reduceSum xShape axis (fun i => s.heap (base + 2) i * s.heap (base + 6) i) k)),
      -- gmean2 = -self.inv_std * gx_hat2.sum(axis)      (fresh: base+8)
      HOp.fresh (fun s k => -s.heap rinvstd k * reduceSum xShape axis (s.heap (base + 6)) k),
      -- gx2 = self.inv_std[expander] * gx_hat2 + inv_m * (gmean2[expander] + x_hat * gstd2[expander])  (fresh: base+9)
      HOp.fresh (fun s i => expandWith expander (s.heap rinvstd) i * s.heap (base + 6) i +
        inv_m * (expandWith expander (s.heap (base + 8)) i +
          s.heap (base + 2) i * expandWith expander (s.heap (base + 7)) i)),
      -- ggy2 = gggamma2[expander] * x_hat + ggbeta2[expander] + coeff[expander] * ggx1  (fresh: base+10)
      HOp.fresh (fun s i => expandWith expander (s.heap (base + 3)) i * s.heap (base + 2) i +
        expandWith expander (s.heap (base + 4)) i +
        expandWith expander (s.heap base) i * heapOr rggx1 s i) ])

/-- Buffer-level translation of `FixedBatchNormalizationGrad.backward`: the
five optional upstream gradients are read through `heapOr`; the only in-place
statement is `x_mu *= inv_std` inside `_x_hat`.  Results
`(gx2, ggamma2, gmean2, gvar2, ggy2)` live at
`(base+6, base+11, base+7, base+12, base+10)`. -/
def FixedBatchNormalizationGrad.backwardH (xShape axis : List Nat)
    (expander : List ExEntry)
    (rinvstd rinvvar rgos rggamma1 rgbeta1 rx rgamma rmean rgy : Nat)
    (rggx1 rgggamma1 rggbeta1 rggmean1 rggvar1 : Option Nat) (s0 : HSt) :
    (Nat × Nat × Nat × Nat × Nat) × HSt :=
  let base := s0.next
  ((base + 6, base + 11, base + 7, base + 12, base + 10), runOps s0
    [ -- x_hat = _x_hat(x, mean[expander], self.inv_std[expander]): x_mu = x - mean  (fresh: base)
      HOp.fresh (fun s i => s.heap rx i - expandWith expander (s.heap rmean) i),
      -- _x_hat: x_mu *= self.inv_std[expander]          (in place on x_mu)
      HOp.store base
        (fun s i => s.heap base i * expandWith expander (s.heap rinvstd) i),
      -- tmp = -0.5 * ggvar1                             (fresh: base+1)
      HOp.fresh (fun s k => -(1 / 2) * heapOr rggvar1 s k),
      -- gamma_over_var = gamma * self.inv_var           (fresh: base+2)
      HOp.fresh (fun s k => s.heap rgamma k * s.heap rinvvar k),
      -- g_gamma_over_var = tmp * ggamma1                (fresh: base+3)
      HOp.fresh (fun s k => s.heap (base + 1) k * s.heap rggamma1 k),
      -- gggamma2 = gggamma1 + tmp * gamma_over_var      (fresh: base+4)
      HOp.fresh (fun s k => heapOr rgggamma1 s k + s.heap (base + 1) k * s.heap (base + 2) k),
      -- gx_hat = gy * gggamma2[expander]                (fresh: base+5)
      HOp.fresh (fun s i => s.heap rgy i * expandWith expander (s.heap (base + 4)) i),
      -- gx2 = self.inv_std[expander] * gx_hat           (fresh: base+6)
      HOp.fresh (fun s i => expandWith expander (s.heap rinvstd) i * s.heap (base + 5) i),
      -- gmean2 = -self.inv_std * gx_hat.sum(axis)       (fresh: base+7)
      HOp.fresh (fun s k => -s.heap rinvstd k * reduceSum xShape axis (s.heap (base + 5)) k),
      -- g_gamma_over_std = (ggx1 * gy).sum(axis) - ggmean1 * gbeta1  (fresh: base+8)
      HOp.fresh (fun s k =>
        reduceSum xShape axis (fun i => heapOr rggx1 s i * s.heap rgy i) k -
          heapOr rggmean1 s k * s.heap rgbeta1 k),
      -- ggbeta2 = ggbeta1 - ggmean1 * self.gamma_over_std  (fresh: base+9)
      HOp.fresh (fun s k => heapOr rggbeta1 s k - heapOr rggmean1 s k * s.heap rgos k),
      -- ggy2 = gggamma2[expander] * x_hat + ggbeta2[expander] + self.gamma_over_std[expander] * ggx1  (fresh: base+10)
      HOp.fresh (fun s i => expandWith expander (s.heap (base + 4)) i * s.heap base i +
        expandWith expander (s.heap (base + 9)) i +
        expandWith expander (s.heap rgos) i * heapOr rggx1 s i),
      -- ggamma2 = self.inv_var * g_gamma_over_var + self.inv_std * g_gamma_over_std  (fresh: base+11)
      HOp.fresh (fun s k => s.heap rinvvar k * s.heap (base + 3) k +
        s.heap rinvstd k * s.heap (base + 8) k),
      -- gvar2 = -(ggamma2 * gamma_over_var + 0.5 * self.inv_var * ((x_hat * gx_hat).sum(axis) - gamma_over_std * g_gamma_over_std))  (fresh: base+12)
      HOp.fresh (fun s k => -(s.heap (base + 11) k * s.heap (base + 2) k +
        1 / 2 * s.heap rinvvar k *
          (reduceSum xShape axis (fun i => s.heap base i * s.heap (base + 5) i) k -
            s.heap rgos k * s.heap (base + 8) k))) ])

/-- Membership in the legacy resolved axis list: axis 0 plus all axes
strictly after the channel block. -/
lemma mem_resolveAxis_none (M R i : Nat) (h : M + 1 ≤ R) :
    i ∈ resolveAxis none M R ↔ i = 0 ∨ (M + 1 ≤ i ∧ i < R) := by
  have hh : M + 1 + (R - (M + 1)) = R := by omega
  simp [resolveAxis, List.mem_range'_1, hh]

/-- Filtering `range R` by `1 ≤ i ≤ M` yields the contiguous window. -/
lemma filter_range_window (M : Nat) :
    ∀ R, (List.range R).filter (fun i => decide (1 ≤ i ∧ i ≤ M)) =
      List.range' 1 (min M (R - 1))
  | 0 => by simp
  | (n + 1) => by
    rw [List.range_succ, List.filter_append, filter_range_window M n]
    by_cases hn : 1 ≤ n ∧ n ≤ M
    · have h1 : min M (n - 1) = n - 1 := by omega
      have h2 : min M (n + 1 - 1) = n := by omega
      have h3 : List.filter (fun i => decide (1 ≤ i ∧ i ≤ M)) [n] = [n] := by
        simp [List.filter_cons, hn]
      rw [h1, h2, h3]
      have h4 : n = (n - 1) + 1 := by omega
      conv_rhs => rw [h4, List.range'_1_concat]
      have h5 : 1 + (n - 1) = n := by omega
      rw [h5]
    · have h1 : min M (n - 1) = min M (n + 1 - 1) := by omega
      have h3 : List.filter (fun i => decide (1 ≤ i ∧ i ≤ M)) [n] = [] := by
        simp [List.filter_cons, hn]
      rw [h1, h3, List.append_nil]

/-- Under the legacy convention the key (kept) axes are exactly `1..M`. -/
lemma keyAxis_legacy (M R : Nat) (h : M + 1 ≤ R) :
    keyAxisOf (resolveAxis none M R) R = List.range' 1 M := by
  unfold keyAxisOf
  rw [List.filter_congr (fun i hi => ?_), filter_range_window M R]
  · have : min M (R - 1) = M := by omega
    rw [this]
  · have hi' : i < R := List.mem_range.mp hi
    have := mem_resolveAxis_none M R i h
    simp only [decide_eq_decide, this]
    omega

/-- Position of `j` in a contiguous window of axes. -/
lemma findIdx?_range' (j : Nat) : ∀ (n s i : Nat),
    (List.range' s n).findIdx? (fun k => decide (k = j)) i =
      if s ≤ j ∧ j < s + n then some (j - s + i) else none
  | 0, s, i => by
    rw [if_neg (by omega)]
    simp
  | (n + 1), s, i => by
    rw [List.range'_succ, List.findIdx?_cons]
    by_cases hs : s = j
    · rw [if_pos (by simp [hs]), if_pos (by omega)]
      simp [hs]
    · rw [if_neg (by simp [hs]), findIdx?_range' j n (s + 1) (i + 1)]
      split_ifs with h1 h2 h2
      · congr 1
        omega
      · omega
      · omega
      · rfl

/-- A position not occurring in `ka` has no index in it. -/
lemma findIdx?_not_mem (j : Nat) : ∀ (ka : List Nat) (i : Nat), j ∉ ka →
    ka.findIdx? (fun k => decide (k = j)) i = none
  | [], _, _ => by simp
  | (a :: ka), i, h => by
    rw [List.findIdx?_cons,
      if_neg (by simp; intro hh; exact h (hh ▸ List.mem_cons_self a ka))]
    exact findIdx?_not_mem j ka (i + 1) (fun hm => h (List.mem_cons_of_mem a hm))

/-- The expander entry at a valid position `j`. -/
lemma mkExpander_getD (R : Nat) (ka gs : List Nat) (j : Nat) (hj : j < R) :
    (mkExpander R ka gs).getD j ExEntry.noneE =
      match ka.findIdx? (fun k => decide (k = j)) with
      | some i => ExEntry.sliceE (gs.getD i 0)
      | none => ExEntry.noneE := by
  unfold mkExpander
  rw [List.getD_eq_getElem _ _ (by simpa using hj), List.getElem_map, List.getElem_range]

/-- Zipping `range R` with a length-`R` index pairs each position with its
coordinate. -/
lemma zip_range_eq (R : Nat) (idx : Idx) (h : idx.length = R) :
    (List.range R).zip idx = (List.range R).map (fun j => (j, idx.getD j 0)) := by
  apply List.ext_getElem (by simp [h])
  intro n h1 h2
  have hn : n < idx.length := by simp [h] at h1; omega
  simp [List.getElem_zip, List.getElem_range, List.getD_eq_getElem _ _ hn,
    List.getElem?_eq_getElem hn]

/-- Collecting, in order, the values at the positions of a duplicate-free
position list `ka` (a sublist of the traversal order `l`). -/
lemma filterMap_pick {α : Type} (g : Nat → α) :
    ∀ (ka l : List Nat), ka.Sublist l → l.Nodup →
      l.filterMap (fun j =>
        match ka.findIdx? (fun k => decide (k = j)) with
        | some _ => some (g j)
        | none => none) = ka.map g := by
  intro ka l hs
  induction hs with
  | slnil => simp
  | cons a hs ih =>
    intro hnd
    rename_i ka' l'
    rw [List.filterMap_cons]
    have ha : a ∉ ka' := fun hm => (List.nodup_cons.mp hnd).1 (hs.subset hm)
    rw [findIdx?_not_mem a ka' 0 ha]
    exact ih (List.nodup_cons.mp hnd).2
  | cons₂ a hs ih =>
    intro hnd
    rename_i ka' l'
    rw [List.filterMap_cons]
    have h0 : (a :: ka').findIdx? (fun k => decide (k = a)) 0 = some 0 := by
      rw [List.findIdx?_cons, if_pos (by simp)]
    rw [List.map_cons]
    have hcongr : ∀ j ∈ l',
        (match (a :: ka').findIdx? (fun k => decide (k = j)) 0 with
         | some _ => some (g j)
         | none => none) =
        (match ka'.findIdx? (fun k => decide (k = j)) 0 with
         | some _ => some (g j)
         | none => none) := by
      intro j hj
      have hja : a ≠ j := fun hh => (List.nodup_cons.mp hnd).1 (hh ▸ hj)
      rw [List.findIdx?_cons, if_neg (by simp [hja]), List.findIdx?_succ]
      cases ka'.findIdx? (fun k => decide (k = j)) 0 <;> simp
    rw [h0, List.filterMap_congr hcongr, ih (List.nodup_cons.mp hnd).2]

/-- Indexing with the expander built from a duplicate-free, sorted key-axis
list and broadcasting is the same as reading the channel value at the
kept coordinates of the full index. -/
lemma expandWith_mkExpander (R : Nat) (ka gs : List Nat) (v : Idx → ℚ)
    (idx : Idx) (hs : ka.Sublist (List.range R)) (hlen : idx.length = R) :
    expandWith (mkExpander R ka gs) v idx = v (subIdx ka idx) := by
  unfold expandWith mkExpander subIdx
  rw [List.zip_map_left, List.filterMap_map, zip_range_eq R idx hlen, List.filterMap_map]
  congr 1
  rw [← filterMap_pick (fun j => idx.getD j 0) ka (List.range R) hs (List.nodup_range R)]
  apply List.filterMap_congr
  intro j hj
  simp only [Function.comp, Prod.map]
  cases ka.findIdx? (fun k => decide (k = j)) 0 <;> simp

/-- C1 (code bug exhibit): in the generic training-mode forward the source
executes `var += self.eps` in place *before* the running-statistics update,
so the quantity folded into `running_var` is `adjust * (var + eps)`, not the
batch variance `adjust * var` that the claim (and the spec's formula) state.
At the concrete input `x = [[0],[2]]` (shape `(2,1)`), `gamma = beta = (1,)`,
`eps = 1/10`, `decay = 1/2`, zero running statistics: the batch variance is
`1`, yet the updated `running_var` is `(1/2)*2*(1 + 1/10) = 11/10`, whereas
the claim demands `(1/2)*2*1 = 1`. -/
theorem running_update_folds_eps_stabilized_var :
    (BatchNormalization.forward (fun _ => 0) (1/10) (1/2) [2,1] [1] none
        (fun idx => 2 * (idx.getD 0 0 : ℚ)) (fun _ => 1) (fun _ => 0)
        (some (fun _ => 0)) (some (fun _ => 0))).map (fun o => o.runningVar [0]) =
      Except.ok ((1/2) * 0 + (1 - 1/2) * 2 *
        (reduceVar [2,1] [0] (fun idx => 2 * (idx.getD 0 0 : ℚ)) [0] + 1/10)) ∧
    reduceVar [2,1] [0] (fun idx => 2 * (idx.getD 0 0 : ℚ)) [0] = 1 ∧
    ((1/2) * 0 + (1 - 1/2) * 2 * ((1 : ℚ) + 1/10) ≠ (1/2) * 0 + (1 - 1/2) * 2 * 1) := by
  have hr2 : List.range 2 = [0, 1] := rfl
  have hr1 : List.range 1 = [0] := rfl
  refine ⟨?_, ?_, by norm_num⟩
  · simp [BatchNormalization.forward, shapeMismatchB, reduceVar, reduceMean, reduceSum,
      reducedCount, subIdx, keyAxisOf, allIdx, resolveAxis, hr2, hr1, Except.map]
    norm_num
  · simp [reduceVar, reduceMean, reduceSum, reducedCount, subIdx, keyAxisOf, allIdx,
      hr2, hr1]
    norm_num

/-- C2: with axis spec `None`, input rank `R ≥ M + 1` and channel rank `M`,
the resolver produces the reduced axis set `{0} ∪ {M+1, …, R-1}`, the key
axis list `[1, …, M]`, and an expander of length `R` that maps each key axis
`j` to the full slice of the corresponding channel dimension and every other
position to the singleton-insertion marker. -/
theorem legacy_axis_resolution_spec (R M i j : Nat) (gs : List Nat)
    (h : M + 1 ≤ R) (hj : j < R) :
    (i ∈ resolveAxis none M R ↔ i = 0 ∨ (M + 1 ≤ i ∧ i < R)) ∧
    keyAxisOf (resolveAxis none M R) R = List.range' 1 M ∧
    (mkExpander R (keyAxisOf (resolveAxis none M R) R) gs).length = R ∧
    (mkExpander R (keyAxisOf (resolveAxis none M R) R) gs).getD j ExEntry.noneE =
      (if 1 ≤ j ∧ j ≤ M then ExEntry.sliceE (gs.getD (j - 1) 0) else ExEntry.noneE) := by
  refine ⟨mem_resolveAxis_none M R i h, keyAxis_legacy M R h, by simp [mkExpander], ?_⟩
  rw [keyAxis_legacy M R h, mkExpander_getD R _ gs j hj, findIdx?_range' j M 1 0]
  by_cases hc : 1 ≤ j ∧ j < 1 + M
  · rw [if_pos hc, if_pos (by omega)]
    rfl
  · rw [if_neg hc, if_neg (by omega)]

/-- Witness for C2 at `R = 4`, `M = 1`, `gamma.shape = (3,)` (the spec's
`(2,3,4,4)` scenario): axis `2` is reduced, the key axis list is `[1]`, and
the expander keeps the channel dimension at position `1`. -/
theorem legacy_axis_resolution_spec_witness :
    2 ∈ resolveAxis none 1 4 ∧
    keyAxisOf (resolveAxis none 1 4) 4 = List.range' 1 1 ∧
    (mkExpander 4 (keyAxisOf (resolveAxis none 1 4) 4) [3]).getD 1 ExEntry.noneE =
      ExEntry.sliceE 3 := by
  obtain ⟨h1, h2, h3, h4⟩ := legacy_axis_resolution_spec 4 1 2 1 [3] (by omega) (by omega)
  exact ⟨h1.mpr (by omega), h2, by rw [h4, if_pos (by omega)]; rfl⟩

/-- C8 (counterexample): the fixed-statistics constructor accepts an epsilon
strictly below the accelerated path's minimum `1e-5` even when that path is
mandated — no `EpsilonTooSmall` error is raised at construction, contrary to
the claim that both variants fail. -/
theorem fixed_init_accepts_small_eps_cex :
    FixedBatchNormalization.init true (1/1000000) none = Except.ok none ∧
    (1/1000000 : ℚ) < 1/100000 :=
  ⟨rfl, by norm_num⟩

/-- C8 (amended): when the accelerated path is mandated and `eps < 1e-5`,
construction of the *training-mode* primitive fails with `EpsilonTooSmall`;
the fixed-statistics constructor performs no epsilon check and always
succeeds. -/
theorem eps_check_training_only (eps : ℚ) (axisSpec : Option (List Nat))
    (h : eps < 1/100000) :
    BatchNormalization.init true eps axisSpec = Except.error BNErr.epsilonTooSmall ∧
    FixedBatchNormalization.init true eps axisSpec = Except.ok axisSpec := by
  refine ⟨?_, rfl⟩
  unfold BatchNormalization.init
  rw [one_div] at h
  rw [if_pos (by simp [h])]

/-- Witness for the amended C8 at `eps = 1e-6`. -/
theorem eps_check_training_only_witness :
    BatchNormalization.init true (1/1000000) none = Except.error BNErr.epsilonTooSmall ∧
    FixedBatchNormalization.init true (1/1000000) none = Except.ok none :=
  eps_check_training_only (1/1000000) none (by norm_num)

/-- The key-axis list is always a sorted, duplicate-free selection of axes. -/
lemma keyAxisOf_sublist (axis : List Nat) (R : Nat) :
    (keyAxisOf axis R).Sublist (List.range R) :=
  List.filter_sublist _

/-- C3: for the generic fixed-statistics forward, at every full index whose
channel coordinates are `K`, the output satisfies
`(y - beta K) / gamma K = (x - mean K) / sqrt(var K + eps)` exactly, provided
`gamma K ≠ 0` and the modelled elementwise square root is an exact square
root at the value used (`sqrt(1/(var K + eps)) * sqrt(var K + eps) = 1`,
which forces `sqrt(1/(var K + eps)) = 1 / sqrt(var K + eps)`). -/
theorem fixed_forward_normalization_identity (sqrtQ : ℚ → ℚ) (eps : ℚ)
    (xShape gammaShape : List Nat) (axisSpec : Option (List Nat))
    (x gamma beta mean var : Idx → ℚ) (idx : Idx) (yv : ℚ)
    (hlen : idx.length = xShape.length)
    (hok : (FixedBatchNormalization.forward sqrtQ eps xShape gammaShape axisSpec
        x gamma beta mean var).map (fun o => o.y idx) = Except.ok yv)
    (hg : gamma (chanIdx xShape gammaShape axisSpec idx) ≠ 0)
    (hs : sqrtQ (1 / (var (chanIdx xShape gammaShape axisSpec idx) + eps)) *
        sqrtQ (var (chanIdx xShape gammaShape axisSpec idx) + eps) = 1) :
    (yv - beta (chanIdx xShape gammaShape axisSpec idx)) /
        gamma (chanIdx xShape gammaShape axisSpec idx) =
      (x idx - mean (chanIdx xShape gammaShape axisSpec idx)) /
        sqrtQ (var (chanIdx xShape gammaShape axisSpec idx) + eps) := by
  simp only [FixedBatchNormalization.forward] at hok
  by_cases hsm : shapeMismatchB (keyAxisOf (resolveAxis axisSpec gammaShape.length
      xShape.length) xShape.length) gammaShape xShape = true
  · rw [if_pos hsm] at hok
    simp [Except.map] at hok
  · rw [if_neg hsm] at hok
    simp only [Except.map] at hok
    have hy := Except.ok.inj hok
    subst hy
    unfold apply_bn_fwd x_hat_of
    rw [expandWith_mkExpander _ _ _ _ _ (keyAxisOf_sublist _ _) hlen,
      expandWith_mkExpander _ _ _ _ _ (keyAxisOf_sublist _ _) hlen,
      expandWith_mkExpander _ _ _ _ _ (keyAxisOf_sublist _ _) hlen,
      expandWith_mkExpander _ _ _ _ _ (keyAxisOf_sublist _ _) hlen]
    unfold chanIdx at hg hs ⊢
    set K := subIdx (keyAxisOf (resolveAxis axisSpec gammaShape.length
      xShape.length) xShape.length) idx
    have hs2 : sqrtQ (var K + eps) ≠ 0 := by
      intro h0
      rw [h0, mul_zero] at hs
      exact one_ne_zero hs.symm
    have h1 : sqrtQ (1 / (var K + eps)) = 1 / sqrtQ (var K + eps) :=
      eq_one_div_of_mul_eq_one_left hs
    rw [add_sub_cancel_right, mul_div_cancel_left₀ _ hg, h1, mul_one_div]

/-- Witness for C3: `x.shape = (2,1)`, `gamma = 2`, `beta = 5`, `mean = 1`,
`var = 2`, `eps = 2` (so `var + eps = 4` has exact square root `2`), with a
square-root model that is exact on the two values used. -/
theorem fixed_forward_normalization_identity_witness :
    ((7 : ℚ) - (fun _ => (5 : ℚ)) (chanIdx [2,1] [1] none [0,0])) /
        (fun _ => (2 : ℚ)) (chanIdx [2,1] [1] none [0,0]) =
      ((fun _ => (3 : ℚ)) ([0,0] : Idx) - (fun _ => (1 : ℚ)) (chanIdx [2,1] [1] none [0,0])) /
        (fun q => if q = (1/4 : ℚ) then 1/2 else if q = 4 then 2 else 0)
          ((fun _ => (2 : ℚ)) (chanIdx [2,1] [1] none [0,0]) + 2) := by
  refine fixed_forward_normalization_identity
    (fun q => if q = (1/4 : ℚ) then 1/2 else if q = 4 then 2 else 0) 2
    [2,1] [1] none (fun _ => 3) (fun _ => 2) (fun _ => 5) (fun _ => 1) (fun _ => 2)
    [0,0] 7 rfl ?_ (by norm_num) (by norm_num)
  have hr2 : List.range 2 = [0, 1] := rfl
  have hr1 : List.range 1 = [0] := rfl
  simp [FixedBatchNormalization.forward, shapeMismatchB, resolveAxis, keyAxisOf,
    mkExpander, expandWith, apply_bn_fwd, x_hat_of, subIdx, hr2, hr1, Except.map,
    List.findIdx?_cons, List.findIdx?_nil]
  norm_num

/-- The Boolean mismatch check succeeds exactly when some key-axis size of
`gamma` disagrees with the corresponding axis size of `x`. -/
lemma shapeMismatchB_iff (ka gs xs : List Nat) :
    shapeMismatchB ka gs xs = true ↔
      ∃ i, i < ka.length ∧ gs.getD i 0 ≠ xs.getD (ka.getD i 0) 0 := by
  simp [shapeMismatchB, List.any_eq_true, List.mem_range, bne_iff_ne]

/-- C4: if some `i`-th key axis `j` has `gamma.shape[i] ≠ x.shape[j]`, both
the training-mode and the fixed-statistics forward raise `ShapeMismatch`, and
at the buffer level the heap is returned untouched (in particular the running
statistics are not modified and no numeric work is recorded); if all key-axis
sizes agree, no error is raised (the generic forwards always succeed). -/
theorem shape_mismatch_raised_before_state_change
    (powNegHalf sqrtQ : ℚ → ℚ) (eps decay : ℚ) (xShape gammaShape : List Nat)
    (axisSpec : Option (List Nat)) (x gamma beta mean var : Idx → ℚ)
    (rmo rvo : Option (Idx → ℚ)) (rx rg rb rrm rrv : Nat) (s0 : HSt) :
    ((∃ i, i < (keyAxisOf (resolveAxis axisSpec gammaShape.length xShape.length)
          xShape.length).length ∧
        gammaShape.getD i 0 ≠ xShape.getD ((keyAxisOf (resolveAxis axisSpec
          gammaShape.length xShape.length) xShape.length).getD i 0) 0) →
      BatchNormalization.forward powNegHalf eps decay xShape gammaShape axisSpec
          x gamma beta rmo rvo = Except.error BNErr.shapeMismatch ∧
        FixedBatchNormalization.forward sqrtQ eps xShape gammaShape axisSpec
          x gamma beta mean var = Except.error BNErr.shapeMismatch ∧
        BatchNormalization.forwardH powNegHalf eps decay xShape gammaShape axisSpec
          rx rg rb rrm rrv s0 = (Except.error BNErr.shapeMismatch, s0)) ∧
    ((∀ i, i < (keyAxisOf (resolveAxis axisSpec gammaShape.length xShape.length)
          xShape.length).length →
        gammaShape.getD i 0 = xShape.getD ((keyAxisOf (resolveAxis axisSpec
          gammaShape.length xShape.length) xShape.length).getD i 0) 0) →
      (BatchNormalization.forward powNegHalf eps decay xShape gammaShape axisSpec
          x gamma beta rmo rvo).isOk = true ∧
        (FixedBatchNormalization.forward sqrtQ eps xShape gammaShape axisSpec
          x gamma beta mean var).isOk = true) := by
  constructor
  · intro hex
    have hb : shapeMismatchB (keyAxisOf (resolveAxis axisSpec gammaShape.length
        xShape.length) xShape.length) gammaShape xShape = true :=
      (shapeMismatchB_iff _ _ _).mpr hex
    refine ⟨?_, ?_, ?_⟩
    · simp only [BatchNormalization.forward]
      rw [if_pos hb]
    · simp only [FixedBatchNormalization.forward]
      rw [if_pos hb]
    · simp only [BatchNormalization.forwardH]
      rw [if_pos hb]
  · intro hall
    have hb : shapeMismatchB (keyAxisOf (resolveAxis axisSpec gammaShape.length
        xShape.length) xShape.length) gammaShape xShape = false := by
      rw [Bool.eq_false_iff]
      intro hc
      obtain ⟨i, hi, hne⟩ := (shapeMismatchB_iff _ _ _).mp hc
      exact hne (hall i hi)
    constructor
    · simp only [BatchNormalization.forward]
      rw [if_neg (by rw [hb]; exact Bool.false_ne_true)]
      rfl
    · simp only [FixedBatchNormalization.forward]
      rw [if_neg (by rw [hb]; exact Bool.false_ne_true)]
      rfl

/-- Witness for C4 on the spec's scenario: `gamma.shape = (4,)` against
`x.shape = (2,3,4,4)` (legacy axis) raises `ShapeMismatch` in every variant
and leaves the store untouched, while `gamma.shape = (3,)` succeeds. -/
theorem shape_mismatch_raised_before_state_change_witness :
    (BatchNormalization.forward (fun _ => 0) 0 0 [2,3,4,4] [4] none
        (fun _ => 0) (fun _ => 0) (fun _ => 0) none none =
      Except.error BNErr.shapeMismatch) ∧
    (FixedBatchNormalization.forward (fun _ => 0) 0 [2,3,4,4] [4] none
        (fun _ => 0) (fun _ => 0) (fun _ => 0) (fun _ => 0) (fun _ => 0) =
      Except.error BNErr.shapeMismatch) ∧
    (BatchNormalization.forwardH (fun _ => 0) 0 0 [2,3,4,4] [4] none
        0 1 2 3 4 ⟨fun _ _ => 0, 7⟩ =
      (Except.error BNErr.shapeMismatch, ⟨fun _ _ => 0, 7⟩)) ∧
    ((BatchNormalization.forward (fun _ => 0) 0 0 [2,3,4,4] [3] none
        (fun _ => 0) (fun _ => 0) (fun _ => 0) none none).isOk = true) ∧
    ((FixedBatchNormalization.forward (fun _ => 0) 0 [2,3,4,4] [3] none
        (fun _ => 0) (fun _ => 0) (fun _ => 0) (fun _ => 0) (fun _ => 0)).isOk = true) := by
  obtain ⟨hbad, -⟩ := shape_mismatch_raised_before_state_change (fun _ => 0) (fun _ => 0)
    0 0 [2,3,4,4] [4] none (fun _ => 0) (fun _ => 0) (fun _ => 0) (fun _ => 0)
    (fun _ => 0) none none 0 1 2 3 4 ⟨fun _ _ => 0, 7⟩
  obtain ⟨-, hgood⟩ := shape_mismatch_raised_before_state_change (fun _ => 0) (fun _ => 0)
    0 0 [2,3,4,4] [3] none (fun _ => 0) (fun _ => 0) (fun _ => 0) (fun _ => 0)
    (fun _ => 0) none none 0 1 2 3 4 ⟨fun _ _ => 0, 7⟩
  obtain ⟨h1, h2, h3⟩ := hbad ⟨0, by decide, by decide⟩
  obtain ⟨h4, h5⟩ := hgood (by decide)
  exact ⟨h1, h2, h3, h4, h5⟩

/-- C5: the generic training-mode backward returns exactly
`gbeta = reduce_sum(gy, axis)`,
`ggamma = reduce_sum(gy * x_hat, axis)` with
`x_hat = (x - mean_expanded) * inv_std_expanded`, and
`gx = (gamma*inv_std)_expanded * (gy - (x_hat*ggamma_expanded + gbeta_expanded) * inv_m)`
with `inv_m = 1 / (x.size // gamma.size)`, for every input and every index. -/
theorem training_backward_formulas (xShape gammaShape axis : List Nat)
    (expander : List ExEntry) (mean inv_std x gamma gy : Idx → ℚ) (idx k : Idx) :
    (BatchNormalizationGrad.forward xShape gammaShape axis expander mean inv_std
        x gamma gy).gbeta k = reduceSum xShape axis gy k ∧
    (BatchNormalizationGrad.forward xShape gammaShape axis expander mean inv_std
        x gamma gy).ggamma k =
      reduceSum xShape axis (fun i => gy i *
        x_hat_of x (expandWith expander mean) (expandWith expander inv_std) i) k ∧
    (BatchNormalizationGrad.forward xShape gammaShape axis expander mean inv_std
        x gamma gy).gx idx =
      expandWith expander (fun c => gamma c * inv_std c) idx *
        (gy idx -
          (x_hat_of x (expandWith expander mean) (expandWith expander inv_std) idx *
              expandWith expander (reduceSum xShape axis (fun i => gy i *
                x_hat_of x (expandWith expander mean) (expandWith expander inv_std) i)) idx +
            expandWith expander (reduceSum xShape axis gy) idx) *
          (1 / ((xShape.prod / gammaShape.prod : Nat) : ℚ))) :=
  ⟨rfl, rfl, rfl⟩

/-- C6: the fixed-mode backward returns exactly
`gx = (gamma*inv_std)_expanded * gy`, `gbeta = reduce_sum(gy, axis)`,
`ggamma = reduce_sum(x_hat * gy, axis)`, `gmean = -(gamma*inv_std) * gbeta`,
`gvar = -0.5 * gamma * inv_var * ggamma`; when the statistics were not cached
it recomputes `inv_var = 1/(var+eps)` and `inv_std = sqrt(inv_var)` (first
block), and when they were cached it uses the cached values (second block). -/
theorem fixed_backward_formulas (sqrtQ : ℚ → ℚ) (eps : ℚ)
    (xShape gammaShape axis : List Nat) (expander : List ExEntry)
    (cs cv : Idx → ℚ) (x gamma mean var gy : Idx → ℚ) (idx k : Idx) :
    ((FixedBatchNormalizationGrad.forward sqrtQ eps xShape gammaShape axis expander
        none none x gamma mean var gy).gx idx =
      expandWith expander (fun c => gamma c * sqrtQ (1 / (var c + eps))) idx * gy idx ∧
    (FixedBatchNormalizationGrad.forward sqrtQ eps xShape gammaShape axis expander
        none none x gamma mean var gy).gbeta k = reduceSum xShape axis gy k ∧
    (FixedBatchNormalizationGrad.forward sqrtQ eps xShape gammaShape axis expander
        none none x gamma mean var gy).ggamma k =
      reduceSum xShape axis (fun i =>
        x_hat_of x (expandWith expander mean)
          (expandWith expander (fun c => sqrtQ (1 / (var c + eps)))) i * gy i) k ∧
    (FixedBatchNormalizationGrad.forward sqrtQ eps xShape gammaShape axis expander
        none none x gamma mean var gy).gmean k =
      -(gamma k * sqrtQ (1 / (var k + eps))) * reduceSum xShape axis gy k ∧
    (FixedBatchNormalizationGrad.forward sqrtQ eps xShape gammaShape axis expander
        none none x gamma mean var gy).gvar k =
      -(1 / 2) * gamma k * (1 / (var k + eps)) *
        reduceSum xShape axis (fun i =>
          x_hat_of x (expandWith expander mean)
            (expandWith expander (fun c => sqrtQ (1 / (var c + eps)))) i * gy i) k) ∧
    ((FixedBatchNormalizationGrad.forward sqrtQ eps xShape gammaShape axis expander
        (some cs) (some cv) x gamma mean var gy).gx idx =
      expandWith expander (fun c => gamma c * cs c) idx * gy idx ∧
    (FixedBatchNormalizationGrad.forward sqrtQ eps xShape gammaShape axis expander
        (some cs) (some cv) x gamma mean var gy).gmean k =
      -(gamma k * cs k) * reduceSum xShape axis gy k ∧
    (FixedBatchNormalizationGrad.forward sqrtQ eps xShape gammaShape axis expander
        (some cs) (some cv) x gamma mean var gy).gvar k =
      -(1 / 2) * gamma k * cv k *
        reduceSum xShape axis (fun i =>
          x_hat_of x (expandWith expander mean) (expandWith expander cs) i * gy i) k) :=
  ⟨⟨rfl, rfl, rfl, rfl, rfl⟩, ⟨rfl, rfl, rfl⟩⟩

/-- A reduction over a pointwise-zero tensor is zero. -/
lemma reduceSum_zero_fn (shape axis : List Nat) (f : Idx → ℚ)
    (hf : ∀ i, f i = 0) (k : Idx) : reduceSum shape axis f k = 0 := by
  unfold reduceSum
  apply List.sum_eq_zero
  intro q hq
  simp only [List.mem_map] at hq
  obtain ⟨i, -, rfl⟩ := hq
  exact hf i

/-- C7: for both second-order backwards, replacing any subset of absent
upstream gradients by explicit zero tensors leaves every output component
unchanged (pointwise, at every index); in particular absence is handled, not
an error.  The substituted call passes `some (zero_if_none o)` for each
upstream slot `o`. -/
theorem absent_upstream_grads_equal_zero_tensors
    (xShape gammaShape axis : List Nat) (expander : List ExEntry)
    (mean inv_std gx1 ggamma1 x gamma gy : Idx → ℚ)
    (inv_var gamma_over_std gbeta1 : Idx → ℚ)
    (o1 o2 o3 p1 p2 p3 p4 p5 : Option (Idx → ℚ)) (idx k : Idx) :
    ((BatchNormalizationGrad.backward xShape gammaShape axis expander mean inv_std
        gx1 ggamma1 x gamma gy o1 o2 o3).1 idx =
      (BatchNormalizationGrad.backward xShape gammaShape axis expander mean inv_std
        gx1 ggamma1 x gamma gy (some (zero_if_none o1)) (some (zero_if_none o2))
        (some (zero_if_none o3))).1 idx ∧
    (BatchNormalizationGrad.backward xShape gammaShape axis expander mean inv_std
        gx1 ggamma1 x gamma gy o1 o2 o3).2.1 k =
      (BatchNormalizationGrad.backward xShape gammaShape axis expander mean inv_std
        gx1 ggamma1 x gamma gy (some (zero_if_none o1)) (some (zero_if_none o2))
        (some (zero_if_none o3))).2.1 k ∧
    (BatchNormalizationGrad.backward xShape gammaShape axis expander mean inv_std
        gx1 ggamma1 x gamma gy o1 o2 o3).2.2 idx =
      (BatchNormalizationGrad.backward xShape gammaShape axis expander mean inv_std
        gx1 ggamma1 x gamma gy (some (zero_if_none o1)) (some (zero_if_none o2))
        (some (zero_if_none o3))).2.2 idx) ∧
    ((FixedBatchNormalizationGrad.backward xShape axis expander inv_std inv_var
        gamma_over_std ggamma1 gbeta1 x gamma mean gy p1 p2 p3 p4 p5).1 idx =
      (FixedBatchNormalizationGrad.backward xShape axis expander inv_std inv_var
        gamma_over_std ggamma1 gbeta1 x gamma mean gy (some (zero_if_none p1))
        (some (zero_if_none p2)) (some (zero_if_none p3)) (some (zero_if_none p4))
        (some (zero_if_none p5))).1 idx ∧
    (FixedBatchNormalizationGrad.backward xShape axis expander inv_std inv_var
        gamma_over_std ggamma1 gbeta1 x gamma mean gy p1 p2 p3 p4 p5).2.1 k =
      (FixedBatchNormalizationGrad.backward xShape axis expander inv_std inv_var
        gamma_over_std ggamma1 gbeta1 x gamma mean gy (some (zero_if_none p1))
        (some (zero_if_none p2)) (some (zero_if_none p3)) (some (zero_if_none p4))
        (some (zero_if_none p5))).2.1 k ∧
    (FixedBatchNormalizationGrad.backward xShape axis expander inv_std inv_var
        gamma_over_std ggamma1 gbeta1 x gamma mean gy p1 p2 p3 p4 p5).2.2.1 k =
      (FixedBatchNormalizationGrad.backward xShape axis expander inv_std inv_var
        gamma_over_std ggamma1 gbeta1 x gamma mean gy (some (zero_if_none p1))
        (some (zero_if_none p2)) (some (zero_if_none p3)) (some (zero_if_none p4))
        (some (zero_if_none p5))).2.2.1 k ∧
    (FixedBatchNormalizationGrad.backward xShape axis expander inv_std inv_var
        gamma_over_std ggamma1 gbeta1 x gamma mean gy p1 p2 p3 p4 p5).2.2.2.1 k =
      (FixedBatchNormalizationGrad.backward xShape axis expander inv_std inv_var
        gamma_over_std ggamma1 gbeta1 x gamma mean gy (some (zero_if_none p1))
        (some (zero_if_none p2)) (some (zero_if_none p3)) (some (zero_if_none p4))
        (some (zero_if_none p5))).2.2.2.1 k ∧
    (FixedBatchNormalizationGrad.backward xShape axis expander inv_std inv_var
        gamma_over_std ggamma1 gbeta1 x gamma mean gy p1 p2 p3 p4 p5).2.2.2.2 idx =
      (FixedBatchNormalizationGrad.backward xShape axis expander inv_std inv_var
        gamma_over_std ggamma1 gbeta1 x gamma mean gy (some (zero_if_none p1))
        (some (zero_if_none p2)) (some (zero_if_none p3)) (some (zero_if_none p4))
        (some (zero_if_none p5))).2.2.2.2 idx) := by
  constructor
  · cases o1 with
    | some g => exact ⟨rfl, rfl, rfl⟩
    | none =>
      have hz : ∀ kk : Idx,
          reduceSum xShape axis (fun i => gx1 i * zero_if_none none i) kk = 0 := by
        intro kk
        apply reduceSum_zero_fn
        intro i
        simp [zero_if_none]
      refine ⟨?_, ?_, ?_⟩ <;>
        simp only [BatchNormalizationGrad.backward, hz] <;> rfl
  · exact ⟨rfl, rfl, rfl, rfl, rfl⟩

/-- Frame property of a translated statement sequence: an address already
allocated before the call (`a < s.next`) and distinct from every in-place
store target is untouched, and the watermark never decreases. -/
lemma runOps_frame (a : Nat) : ∀ (ops : List HOp) (s : HSt), a < s.next →
    (∀ r f, HOp.store r f ∈ ops → a ≠ r) →
    (runOps s ops).heap a = s.heap a ∧ s.next ≤ (runOps s ops).next := by
  intro ops
  induction ops with
  | nil => exact fun s _ _ => ⟨rfl, le_refl _⟩
  | cons op ops ih =>
    intro s ha hst
    have hstep : (runOp s op).heap a = s.heap a ∧ s.next ≤ (runOp s op).next := by
      cases op with
      | fresh f =>
        refine ⟨?_, by simp [runOp, hallocS]⟩
        simp only [runOp, hallocS]
        rw [if_neg (by omega)]
      | store r f =>
        refine ⟨?_, le_refl _⟩
        simp only [runOp, hwrite]
        rw [if_neg (hst r f (List.mem_cons_self _ _))]
    have hrest := ih (runOp s op) (lt_of_lt_of_le ha hstep.2)
      (fun r f hm => hst r f (List.mem_cons_of_mem _ hm))
    simp only [runOps, List.foldl_cons] at *
    exact ⟨hrest.1.trans hstep.1, hstep.2.trans hrest.2⟩

/-- C9: no operation writes to any buffer allocated before the call other
than the running-statistics buffers `rrm`, `rrv`, which only the
training-mode forward updates.  Concretely: every pre-existing address `a`
(`a < s0.next`) distinct from `rrm` and `rrv` holds the same contents after
each of the six operations (training/fixed forward, first-order backwards,
second-order backwards) as before; in particular all caller-supplied inputs
(`x`, `gamma`, `beta`, `mean`, `var`, `gy`, retained outputs, upstream
gradients) are never mutated in place. -/
theorem no_input_mutation_frame
    (powNegHalf sqrtQ : ℚ → ℚ) (eps decay : ℚ)
    (xShape gammaShape axis : List Nat) (axisSpec : Option (List Nat))
    (expander : List ExEntry)
    (rx rgamma rbeta rrm rrv rmean rvar rinvstd rinvvar rgy rgx1 rggamma1 rgos rgbeta1 : Nat)
    (cachedInvStd cachedInvVar rggx1 rgggamma1 rggbeta1 rggmean1 rggvar1 : Option Nat)
    (s0 : HSt) (a : Nat) (ha : a < s0.next) (hm : a ≠ rrm) (hv : a ≠ rrv) :
    (BatchNormalization.forwardH powNegHalf eps decay xShape gammaShape axisSpec
        rx rgamma rbeta rrm rrv s0).2.heap a = s0.heap a ∧
    (FixedBatchNormalization.forwardH sqrtQ eps xShape gammaShape axisSpec
        rx rgamma rbeta rmean rvar s0).2.heap a = s0.heap a ∧
    (BatchNormalizationGrad.forwardH xShape gammaShape axis expander
        rmean rinvstd rx rgamma rgy s0).2.heap a = s0.heap a ∧
    (FixedBatchNormalizationGrad.forwardH sqrtQ eps xShape axis expander
        cachedInvStd cachedInvVar rx rgamma rmean rvar rgy s0).2.heap a = s0.heap a ∧
    (BatchNormalizationGrad.backwardH xShape gammaShape axis expander
        rmean rinvstd rgx1 rggamma1 rx rgamma rgy rggx1 rgggamma1 rggbeta1
        s0).2.heap a = s0.heap a ∧
    (FixedBatchNormalizationGrad.backwardH xShape axis expander
        rinvstd rinvvar rgos rggamma1 rgbeta1 rx rgamma rmean rgy
        rggx1 rgggamma1 rggbeta1 rggmean1 rggvar1 s0).2.heap a = s0.heap a := by
  refine ⟨?_, ?_, ?_, ?_, ?_, ?_⟩
  · dsimp only [BatchNormalization.forwardH]
    split
    · rfl
    · refine (runOps_frame a _ s0 ha ?_).1
      intro r f hmem
      simp only [List.mem_cons, List.not_mem_nil, or_false] at hmem
      rcases hmem with h|h|h|h|h|h|h|h|h|h|h|h <;>
        first
        | exact HOp.noConfusion h
        | (obtain ⟨hr, -⟩ := HOp.store.inj h; omega)
  · dsimp only [FixedBatchNormalization.forwardH]
    split
    · rfl
    · refine (runOps_frame a _ s0 ha ?_).1
      intro r f hmem
      simp only [List.mem_cons, List.not_mem_nil, or_false] at hmem
      rcases hmem with h|h|h|h|h|h|h <;>
        first
        | exact HOp.noConfusion h
        | (obtain ⟨hr, -⟩ := HOp.store.inj h; omega)
  · dsimp only [BatchNormalizationGrad.forwardH]
    refine (runOps_frame a _ s0 ha ?_).1
    intro r f hmem
    simp only [List.mem_cons, List.not_mem_nil, or_false] at hmem
    rcases hmem with h|h|h|h|h <;>
      first
      | exact HOp.noConfusion h
      | (obtain ⟨hr, -⟩ := HOp.store.inj h; omega)
  · cases cachedInvStd with
    | none =>
      cases cachedInvVar with
      | none =>
        dsimp only [FixedBatchNormalizationGrad.forwardH, fixedGradOps]
        refine (runOps_frame a _ s0 ha ?_).1
        intro r f hmem
        simp only [List.mem_cons, List.not_mem_nil, or_false] at hmem
        rcases hmem with h|h|h|h|h|h|h|h|h|h <;>
          first
          | exact HOp.noConfusion h
          | (obtain ⟨hr, -⟩ := HOp.store.inj h; omega)
      | some rv =>
        dsimp only [FixedBatchNormalizationGrad.forwardH, fixedGradOps]
        refine (runOps_frame a _ s0 ha ?_).1
        intro r f hmem
        simp only [List.mem_cons, List.not_mem_nil, or_false] at hmem
        rcases hmem with h|h|h|h|h|h|h|h|h|h <;>
          first
          | exact HOp.noConfusion h
          | (obtain ⟨hr, -⟩ := HOp.store.inj h; omega)
    | some rs =>
      cases cachedInvVar with
      | none =>
        dsimp only [FixedBatchNormalizationGrad.forwardH, fixedGradOps]
        refine (runOps_frame a _ s0 ha ?_).1
        intro r f hmem
        simp only [List.mem_cons, List.not_mem_nil, or_false] at hmem
        rcases hmem with h|h|h|h|h|h|h|h|h|h <;>
          first
          | exact HOp.noConfusion h
          | (obtain ⟨hr, -⟩ := HOp.store.inj h; omega)
      | some rv =>
        dsimp only [FixedBatchNormalizationGrad.forwardH, fixedGradOps]
        refine (runOps_frame a _ s0 ha ?_).1
        intro r f hmem
        simp only [List.mem_cons, List.not_mem_nil, or_false] at hmem
        rcases hmem with h|h|h|h|h|h|h|h <;>
          first
          | exact HOp.noConfusion h
          | (obtain ⟨hr, -⟩ := HOp.store.inj h; omega)
  · dsimp only [BatchNormalizationGrad.backwardH]
    refine (runOps_frame a _ s0 ha ?_).1
    intro r f hmem
    simp only [List.mem_cons, List.not_mem_nil, or_false] at hmem
    rcases hmem with h|h|h|h|h|h|h|h|h|h|h|h <;>
      first
      | exact HOp.noConfusion h
      | (obtain ⟨hr, -⟩ := HOp.store.inj h; omega)
  · dsimp only [FixedBatchNormalizationGrad.backwardH]
    refine (runOps_frame a _ s0 ha ?_).1
    intro r f hmem
    simp only [List.mem_cons, List.not_mem_nil, or_false] at hmem
    rcases hmem with h|h|h|h|h|h|h|h|h|h|h|h|h|h <;>
      first
      | exact HOp.noConfusion h
      | (obtain ⟨hr, -⟩ := HOp.store.inj h; omega)

/-- Witness for C9: a concrete store with watermark `20`, the input and
retained buffers at addresses `0`–`13`, running statistics at `3`, `4`, and
probe address `14`. -/
theorem no_input_mutation_frame_witness :
    (BatchNormalization.forwardH (fun _ => 0) 0 0 [2,1] [1] none
        0 1 2 3 4 ⟨fun _ _ => 0, 20⟩).2.heap 14 =
      (⟨fun _ _ => 0, 20⟩ : HSt).heap 14 ∧
    (FixedBatchNormalization.forwardH (fun _ => 0) 0 [2,1] [1] none
        0 1 2 5 6 ⟨fun _ _ => 0, 20⟩).2.heap 14 =
      (⟨fun _ _ => 0, 20⟩ : HSt).heap 14 ∧
    (BatchNormalizationGrad.forwardH [2,1] [1] [0] [ExEntry.noneE, ExEntry.sliceE 1]
        5 7 0 1 9 ⟨fun _ _ => 0, 20⟩).2.heap 14 =
      (⟨fun _ _ => 0, 20⟩ : HSt).heap 14 ∧
    (FixedBatchNormalizationGrad.forwardH (fun _ => 0) 0 [2,1] [0]
        [ExEntry.noneE, ExEntry.sliceE 1] none none 0 1 5 6 9
        ⟨fun _ _ => 0, 20⟩).2.heap 14 = (⟨fun _ _ => 0, 20⟩ : HSt).heap 14 ∧
    (BatchNormalizationGrad.backwardH [2,1] [1] [0] [ExEntry.noneE, ExEntry.sliceE 1]
        5 7 10 11 0 1 9 none none none ⟨fun _ _ => 0, 20⟩).2.heap 14 =
      (⟨fun _ _ => 0, 20⟩ : HSt).heap 14 ∧
    (FixedBatchNormalizationGrad.backwardH [2,1] [0] [ExEntry.noneE, ExEntry.sliceE 1]
        7 8 12 11 13 0 1 5 9 none none none none none ⟨fun _ _ => 0, 20⟩).2.heap 14 =
      (⟨fun _ _ => 0, 20⟩ : HSt).heap 14 :=
  no_input_mutation_frame (fun _ => 0) (fun _ => 0) 0 0 [2,1] [1] [0] none
    [ExEntry.noneE, ExEntry.sliceE 1] 0 1 2 3 4 5 6 7 8 9 10 11 12 13 none none
    none none none none none ⟨fun _ _ => 0, 20⟩ 14 (by decide) (by decide) (by decide)

/-- C10: the training-mode second-order backward divides `r / gamma`
elementwise without a guard, so the computation is well-defined exactly under
the precondition that `gamma` is elementwise nonzero on its index set; under
that precondition the division-error branch of the checked embedding is
unreachable and the checked variant returns the unguarded result. -/
theorem ggamma2_division_safe_when_gamma_nonzero
    (xShape gammaShape axis : List Nat) (expander : List ExEntry)
    (mean inv_std gx1 ggamma1 x gamma gy : Idx → ℚ)
    (o1 o2 o3 : Option (Idx → ℚ))
    (h : ∀ kk ∈ allIdx gammaShape, gamma kk ≠ 0) :
    BatchNormalizationGrad.backwardChecked xShape gammaShape axis expander mean inv_std
        gx1 ggamma1 x gamma gy o1 o2 o3 =
      Except.ok (BatchNormalizationGrad.backward xShape gammaShape axis expander mean
        inv_std gx1 ggamma1 x gamma gy o1 o2 o3) := by
  unfold BatchNormalizationGrad.backwardChecked
  rw [if_neg (by
    intro hc
    simp only [List.any_eq_true] at hc
    obtain ⟨kk, hmem, hbeq⟩ := hc
    exact h kk hmem (by simpa using hbeq))]

/-- Witness for C10 with the constant channel parameter `gamma = 2` on
channel shape `(1,)`. -/
theorem ggamma2_division_safe_when_gamma_nonzero_witness :
    BatchNormalizationGrad.backwardChecked [2,1] [1] [0]
        [ExEntry.noneE, ExEntry.sliceE 1] (fun _ => 0) (fun _ => 0) (fun _ => 0)
        (fun _ => 0) (fun _ => 0) (fun _ => 2) (fun _ => 0) none none none =
      Except.ok (BatchNormalizationGrad.backward [2,1] [1] [0]
        [ExEntry.noneE, ExEntry.sliceE 1] (fun _ => 0) (fun _ => 0) (fun _ => 0)
        (fun _ => 0) (fun _ => 0) (fun _ => 2) (fun _ => 0) none none none) :=
  ggamma2_division_safe_when_gamma_nonzero [2,1] [1] [0]
    [ExEntry.noneE, ExEntry.sliceE 1] (fun _ => 0) (fun _ => 0) (fun _ => 0)
    (fun _ => 0) (fun _ => 0) (fun _ => 2) (fun _ => 0) none none none
    (fun kk _ => by norm_num)
